import Mathlib

/-!
Verification development for the slick_socket transport toolkit.

The definitions below are a shallow embedding of the Unix implementation:

* `TCPServer.*`   embeds `include/slick_socket/tcp_server.h` together with
  `include/slick_socket/tcp_server_unix.h` (registry maps, epoll set, the
  reactor-thread operations `accept_new_client`, `handle_client_data`,
  `close_socket`, `disconnect_client`, `send_data`, and `start`).
* `TCPClient.*`   embeds the receive loop of
  `include/slick_socket/tcp_client_unix.h` (`client_loop`).
* `MulticastSender.*` embeds `send_data` of
  `include/slick_socket/multicast_sender_unix.h`.
* `MulticastReceiver.*` embeds the body of `receiver_loop` of
  `src/multicast_receiver_unix.h`.

Interactions with the operating system (results of `accept`, `recv`, `send`,
`epoll_ctl`, `sendto`, `recvfrom`, `socket`, `bind`, `listen`) are supplied
as explicit outcome values, so every operation is a pure function from the
current component state and the OS outcome to the next state plus the list
of externally observable events (map mutations, socket syscalls, handler
callbacks) in the order the C++ code performs them.  Logging is outside the
spec's scope and is not modelled.  `std::unordered_map` is modelled as an
association list with `lookup` / `mapInsert` / `mapErase`; client ids
(`next_client_id_`, an `int` counter starting at 1 that never wraps in
practice) are modelled as `Nat`; socket descriptors as `Int`.
-/

namespace SlickSocket

/-- Overwrite-or-append insertion, the behaviour of `unordered_map::operator[]`
followed by assignment. -/
def mapInsert {κ α : Type} [BEq κ] (k : κ) (v : α) : List (κ × α) → List (κ × α)
  | [] => [(k, v)]
  | (k', v') :: rest =>
      if k' == k then (k, v) :: rest else (k', v') :: mapInsert k v rest

/-- Removal of the (unique) entry with the given key, the behaviour of
`unordered_map::erase`. -/
def mapErase {κ α : Type} [BEq κ] (k : κ) : List (κ × α) → List (κ × α)
  | [] => []
  | (k', v') :: rest =>
      if k' == k then rest else (k', v') :: mapErase k rest

/-- Keys of an association list are pairwise distinct (the `unordered_map`
representation invariant). -/
def keysNodup {κ α : Type} (l : List (κ × α)) : Prop :=
  (l.map Prod.fst).Nodup

namespace TCPServer

/-- Connection record: `TCPServerBase::ClientInfo`, `{ socket, address }`. -/
structure ClientInfo where
  socket : Int
  address : String
  deriving DecidableEq

/-- Registry state of one `TCPServerBase` instance as touched by the reactor
operations: `clients_` (id → record), `socket_to_client_id_` (socket → id),
the set of client sockets currently registered with the epoll instance, and
`next_client_id_`.  The listening socket's own epoll registration happens
once at reactor start and is never touched by these operations, so it is not
part of `epollSet`. -/
structure ServerState where
  clients : List (Nat × ClientInfo)
  socketToId : List (Int × Nat)
  epollSet : List Int
  nextClientId : Nat
  deriving DecidableEq

/-- State right after `server_loop` set up the epoll instance: both maps empty
and `next_client_id_` at its initial value 1. -/
def initialServerState : ServerState :=
  { clients := [], socketToId := [], epollSet := [], nextClientId := 1 }

/-- Externally observable actions of the reactor operations, in program
order: epoll registration changes, map mutations, socket syscalls, and
handler callbacks. -/
inductive SEvent where
  | setNonBlock (sock : Int)
  | epollAdd (sock : Int)
  | epollDel (sock : Int)
  | closeSock (sock : Int)
  | eraseSockMap (sock : Int)
  | eraseClientMap (id : Nat)
  | insertClientMap (id : Nat)
  | insertSockMap (sock : Int)
  | cbConnected (id : Nat) (addr : String)
  | cbDisconnected (id : Nat)
  | cbData (id : Nat) (len : Nat)
  | sockSend (sock : Int) (len : Nat)
  deriving DecidableEq

/-- Embedding of `TCPServerBase::close_socket` (tcp_server_unix.h):
`epoll_ctl(EPOLL_CTL_DEL)`, then `socket_to_client_id_.erase(socket)`, then
`close(socket)`. -/
def close_socket (st : ServerState) (sock : Int) : ServerState × List SEvent :=
  ({ st with epollSet := st.epollSet.erase sock,
             socketToId := mapErase sock st.socketToId },
   [SEvent.epollDel sock, SEvent.eraseSockMap sock, SEvent.closeSock sock])

/-- Embedding of `TCPServerBase::disconnect_client`: look the id up in
`clients_`; when present, `close_socket` then `clients_.erase(it)`. -/
def disconnect_client (st : ServerState) (id : Nat) : ServerState × List SEvent :=
  match st.clients.lookup id with
  | none => (st, [])
  | some info =>
      let r := close_socket st info.socket
      ({ r.1 with clients := mapErase id r.1.clients },
       r.2 ++ [SEvent.eraseClientMap id])

/-- Outcome of one `recv` call on a client socket: `ok n` is a return value
of `n ≥ 0` bytes (0 = orderly peer close), `errWouldBlock` a negative return
with `errno` of `EAGAIN`/`EWOULDBLOCK`, `errFatal` any other error. -/
inductive RecvOutcome where
  | ok (n : Nat)
  | errWouldBlock
  | errFatal
  deriving DecidableEq

/-- Embedding of `TCPServerBase::handle_client_data`: look up the id; on
`received > 0` invoke `onClientData`; on `received == 0` or a fatal error,
`close_socket`, `clients_.erase(it)`, then `onClientDisconnected`; a
would-block result does nothing. -/
def handle_client_data (st : ServerState) (id : Nat) (r : RecvOutcome) :
    ServerState × List SEvent :=
  match st.clients.lookup id with
  | none => (st, [])
  | some info =>
      match r with
      | RecvOutcome.ok n =>
          if 0 < n then (st, [SEvent.cbData id n])
          else
            let c := close_socket st info.socket
            ({ c.1 with clients := mapErase id c.1.clients },
             c.2 ++ [SEvent.eraseClientMap id, SEvent.cbDisconnected id])
      | RecvOutcome.errWouldBlock => (st, [])
      | RecvOutcome.errFatal =>
          let c := close_socket st info.socket
          ({ c.1 with clients := mapErase id c.1.clients },
           c.2 ++ [SEvent.eraseClientMap id, SEvent.cbDisconnected id])

/-- Outcome of one `accept` call: would-block, another error, or a new
socket together with the peer address and the success of the follow-up
`fcntl` (non-blocking) and `epoll_ctl(EPOLL_CTL_ADD)` calls. -/
inductive AcceptOutcome where
  | wouldBlock
  | acceptErr
  | accepted (sock : Int) (addr : String) (fcntlOk : Bool) (epollAddOk : Bool)
  deriving DecidableEq

/-- Embedding of `TCPServerBase::accept_new_client`: one `accept` call; on
failure return; otherwise best-effort `fcntl` non-blocking, register with
epoll (on registration failure close and drop the socket), draw
`next_client_id_.fetch_add(1)`, insert into `clients_` then
`socket_to_client_id_`, and finally invoke `onClientConnected`. -/
def accept_new_client (st : ServerState) (o : AcceptOutcome) :
    ServerState × List SEvent :=
  match o with
  | AcceptOutcome.wouldBlock => (st, [])
  | AcceptOutcome.acceptErr => (st, [])
  | AcceptOutcome.accepted sock addr fcntlOk epollAddOk =>
      let evs0 := if fcntlOk then [SEvent.setNonBlock sock] else []
      if epollAddOk then
        let id := st.nextClientId
        ({ clients := mapInsert id { socket := sock, address := addr } st.clients,
           socketToId := mapInsert sock id st.socketToId,
           epollSet := sock :: st.epollSet,
           nextClientId := id + 1 },
         evs0 ++ [SEvent.epollAdd sock, SEvent.insertClientMap id,
                  SEvent.insertSockMap sock, SEvent.cbConnected id addr])
      else
        (st, evs0 ++ [SEvent.closeSock sock])

/-- Outcome of one `send` call inside the send loop: `sent n` a non-negative
return, `wouldBlock` EAGAIN/EWOULDBLOCK, `errConnLost` ECONNRESET/EPIPE/
ENOTCONN, `errOther` any other error. -/
inductive SendResult where
  | sent (n : Nat)
  | wouldBlock
  | errConnLost
  | errOther
  deriving DecidableEq

/-- Embedding of the send loop in `TCPServerBase::send_data`: keep calling
`send` while bytes remain; would-block retries immediately; a
connection-lost error runs `disconnect_client` and returns false; any other
error returns false.  The list supplies successive `send` outcomes; `none`
means the oracle ran out while the loop was still retrying. -/
def send_loop (st : ServerState) (id : Nat) (sock : Int) :
    List SendResult → Nat → Option Bool × ServerState × List SEvent
  | _, 0 => (some true, st, [])
  | [], _ + 1 => (none, st, [])
  | r :: rest, n + 1 =>
      match r with
      | SendResult.sent m =>
          let q := send_loop st id sock rest (n + 1 - m)
          (q.1, q.2.1, SEvent.sockSend sock m :: q.2.2)
      | SendResult.wouldBlock => send_loop st id sock rest (n + 1)
      | SendResult.errConnLost =>
          let d := disconnect_client st id
          (some false, d.1, d.2)
      | SendResult.errOther => (some false, st, [])

/-- Embedding of `TCPServerBase::send_data(client_id, data)`: look the id up
in `clients_`; when absent return false at once; otherwise run the send
loop on the record's socket.  The payload is represented by its length,
the only attribute the control flow reads. -/
def send_data (st : ServerState) (id : Nat) (dataLen : Nat)
    (outs : List SendResult) : Option Bool × ServerState × List SEvent :=
  match st.clients.lookup id with
  | none => (some false, st, [])
  | some info => send_loop st id info.socket outs dataLen

/-- Embedding of the listening-socket branch of `server_loop`: when epoll
reports the listening socket ready, `accept_new_client()` is called exactly
once, consuming exactly one outcome of the OS accept queue. -/
def handle_listening_ready (st : ServerState) (pending : List AcceptOutcome) :
    ServerState × List SEvent × List AcceptOutcome :=
  match pending with
  | [] => (st, [], [])
  | o :: rest =>
      let r := accept_new_client st o
      (r.1, r.2, rest)

/-- Modelled from the spec: the spec's accept policy, "accept is attempted
in a loop until it would block", applied to the same accept-queue model;
written only to be compared with `handle_listening_ready` above. -/
def handle_listening_ready_spec (st : ServerState) :
    List AcceptOutcome → ServerState × List SEvent × List AcceptOutcome
  | [] => (st, [], [])
  | AcceptOutcome.wouldBlock :: rest => (st, [], rest)
  | o :: rest =>
      let r := accept_new_client st o
      let q := handle_listening_ready_spec r.1 rest
      (q.1, r.2 ++ q.2.1, q.2.2)

/-- Well-formedness of the OS in an accept step: the descriptor returned by
`accept` is a fresh open descriptor, so it cannot coincide with the socket
of any live client. -/
def freshSock (st : ServerState) (sock : Int) : Prop :=
  st.socketToId.lookup sock = none ∧ sock ∉ st.epollSet ∧
    ∀ p ∈ st.clients, p.2.socket ≠ sock

instance (st : ServerState) (sock : Int) : Decidable (freshSock st sock) := by
  unfold freshSock
  exact inferInstance

/-- One operation of a running server instance, together with the events it
emits: an accept (with a fresh descriptor when one is returned), the
handling of a readiness event on a client socket, an explicit disconnect,
or a `send_data` call. -/
inductive Step : ServerState → List SEvent → ServerState → Prop where
  | accept (st : ServerState) (o : AcceptOutcome)
      (hfresh : ∀ sock addr fcntlOk epollAddOk,
        o = AcceptOutcome.accepted sock addr fcntlOk epollAddOk → freshSock st sock) :
      Step st (accept_new_client st o).2 (accept_new_client st o).1
  | clientData (st : ServerState) (id : Nat) (r : RecvOutcome) :
      Step st (handle_client_data st id r).2 (handle_client_data st id r).1
  | disconnect (st : ServerState) (id : Nat) :
      Step st (disconnect_client st id).2 (disconnect_client st id).1
  | sendCall (st : ServerState) (id : Nat) (dataLen : Nat) (outs : List SendResult) :
      Step st (send_data st id dataLen outs).2.2 (send_data st id dataLen outs).2.1

/-- States (with their accumulated event trace) reachable by one server
instance from the freshly started state. -/
inductive Reachable : ServerState → List SEvent → Prop where
  | init : Reachable initialServerState []
  | step {st : ServerState} {evs : List SEvent} {st' : ServerState}
      {evs' : List SEvent} (h : Reachable st evs) (hs : Step st evs' st') :
      Reachable st' (evs ++ evs')

/-- Registry invariant (with the bookkeeping facts needed to push it through
every operation): the two maps have unique keys, the epoll set has no
duplicates, issued ids stay below `next_client_id_`, every client record's
socket is epoll-registered and mapped back to its id, every socket-map
entry comes from a client record, and every epoll-registered client socket
is in the socket map. -/
structure Inv (st : ServerState) : Prop where
  clientsNodup : keysNodup st.clients
  sockNodup : keysNodup st.socketToId
  epollNodup : st.epollSet.Nodup
  nextPos : 1 ≤ st.nextClientId
  idBound : ∀ id info, st.clients.lookup id = some info → id < st.nextClientId
  clientSock : ∀ id info, st.clients.lookup id = some info →
      info.socket ∈ st.epollSet ∧ st.socketToId.lookup info.socket = some id
  sockClient : ∀ sock id, st.socketToId.lookup sock = some id →
      ∃ info, st.clients.lookup id = some info ∧ info.socket = sock
  epollSock : ∀ sock, sock ∈ st.epollSet → ∃ id, st.socketToId.lookup sock = some id

def issuedIds (evs : List SEvent) : List Nat :=
  evs.filterMap fun e =>
    match e with
    | SEvent.insertClientMap id => some id
    | _ => none

/-- Environment of one `TCPServerBase::start` call: success of the `socket`
call (and the descriptor it yields), of `bind`, and of `listen`.  The
`SO_REUSEADDR` and non-blocking `fcntl` steps only warn on failure and do
not alter control flow, so their outcomes are not modelled. -/
structure StartEnv where
  socketOk : Bool
  newFd : Int
  bindOk : Bool
  listenOk : Bool
  deriving DecidableEq

/-- Control-thread state touched by `start`: `running_`, `server_socket_`,
and whether the reactor thread has been launched. -/
structure SrvCtl where
  running : Bool
  serverSocket : Int
  threadStarted : Bool
  deriving DecidableEq

/-- Observable actions of `start`. -/
inductive CtlEvent where
  | closeServerSock (fd : Int)
  | launchThread
  deriving DecidableEq

/-- Embedding of `TCPServerBase::start` (tcp_server_unix.h): short-circuit
true when already running; `socket()` failure returns false with
`server_socket_` holding the -1 result; `bind`/`listen` failure closes the
socket, resets `server_socket_` to -1 and returns false; on success set
`running_`, launch the reactor thread and return true. -/
def server_start (c : SrvCtl) (env : StartEnv) : Bool × SrvCtl × List CtlEvent :=
  if c.running then (true, c, [])
  else if env.socketOk = false then
    (false, { c with serverSocket := -1 }, [])
  else if env.bindOk = false then
    (false, { c with serverSocket := -1 }, [CtlEvent.closeServerSock env.newFd])
  else if env.listenOk = false then
    (false, { c with serverSocket := -1 }, [CtlEvent.closeServerSock env.newFd])
  else
    (true,
     { c with running := true, serverSocket := env.newFd, threadStarted := true },
     [CtlEvent.launchThread])

/-- Concrete run used to exhibit reachable states: accept a client on
descriptor 5, accept a second on descriptor 7, then disconnect client 1. -/
def stA : ServerState :=
  (accept_new_client initialServerState
    (AcceptOutcome.accepted 5 "10.0.0.1" true true)).1

/-- State after the second accept of the concrete run. -/
def stB : ServerState :=
  (accept_new_client stA (AcceptOutcome.accepted 7 "10.0.0.2" true true)).1

/-- State after disconnecting client 1 in the concrete run. -/
def stC : ServerState :=
  (disconnect_client stB 1).1

/-- Event trace of the concrete run up to `stA`. -/
def trA : List SEvent :=
  [] ++ (accept_new_client initialServerState
    (AcceptOutcome.accepted 5 "10.0.0.1" true true)).2

/-- Event trace of the concrete run up to `stB`. -/
def trB : List SEvent :=
  trA ++ (accept_new_client stA (AcceptOutcome.accepted 7 "10.0.0.2" true true)).2

/-- Event trace of the concrete run up to `stC`. -/
def trC : List SEvent :=
  trB ++ (disconnect_client stB 1).2

/-- Accept queue with two pending connections, used to compare the code's
accept policy with the spec's. -/
def pendingTwo : List AcceptOutcome :=
  [AcceptOutcome.accepted 5 "10.0.0.1" true true,
   AcceptOutcome.accepted 7 "10.0.0.2" true true]

/-- Recognizer for connected-callback events. -/
def isConnectedEvent : SEvent → Bool
  | SEvent.cbConnected _ _ => true
  | _ => false

end TCPServer

namespace TCPClient

/-- Input to one iteration of `TCPClientBase::client_loop`: either the
`connected_` flag was observed false at the top of the loop (cleared by
`disconnect()`), or `recv` returned `res` with `fatalErrno` telling whether
a negative result carried an errno other than EAGAIN/EWOULDBLOCK. -/
inductive ClientInp where
  | flagCleared
  | recv (res : Int) (fatalErrno : Bool)
  deriving DecidableEq

/-- Observable actions of the client receive loop. -/
inductive CEvent where
  | cbData (n : Nat)
  | setDisconnected
  | cbDisconnected
  | closeSocket
  deriving DecidableEq

/-- Embedding of the `while (connected_)` loop body of `client_loop`:
`res > 0` dispatches `onData` and continues; `res == 0` stores false into
`connected_` and breaks; a fatal receive error does the same; would-block
continues.  Returns the in-loop events and whether the loop exited before
the input list ran out. -/
def client_loop_iter : List ClientInp → List CEvent × Bool
  | [] => ([], false)
  | ClientInp.flagCleared :: _ => ([], true)
  | ClientInp.recv res fatalErrno :: rest =>
      if 0 < res then
        let q := client_loop_iter rest
        (CEvent.cbData res.toNat :: q.1, q.2)
      else if res = 0 then ([CEvent.setDisconnected], true)
      else if fatalErrno then ([CEvent.setDisconnected], true)
      else client_loop_iter rest

/-- Embedding of `TCPClientBase::client_loop`: run the loop; when it exits
(for any reason) invoke `onDisconnected`, then `close(socket_)`.  `none`
means the supplied inputs did not make the loop exit (the loop is still
running), so no exit trace exists. -/
def client_loop (inps : List ClientInp) : Option (List CEvent) :=
  let q := client_loop_iter inps
  if q.2 then some (q.1 ++ [CEvent.cbDisconnected, CEvent.closeSocket]) else none

end TCPClient

namespace MulticastSender

/-- Statistics and running flag of one `MulticastSenderBase` instance. -/
structure SenderState where
  running : Bool
  packetsSent : Nat
  bytesSent : Nat
  sendErrors : Nat
  deriving DecidableEq

/-- Outcome of the single `sendto` call: a transport error, or a
non-negative byte count `n` (which the C++ code compares against the
requested size, warning on a short send). -/
inductive SendtoOutcome where
  | errTransport
  | ok (n : Nat)
  deriving DecidableEq

/-- Embedding of `MulticastSenderBase::send_data` (multicast_sender_unix.h):
fail fast when not running or the payload is empty; an invalid multicast
address (failed `inet_pton`) counts an error and returns false; a `sendto`
error counts an error and returns false; otherwise a short send only logs a
warning, and the packet counter is incremented by one and the byte counter
by the bytes actually sent, returning true. -/
def msender_send_data (st : SenderState) (dataLen : Nat) (addrValid : Bool)
    (r : SendtoOutcome) : Bool × SenderState :=
  if st.running = false then (false, st)
  else if dataLen = 0 then (false, st)
  else if addrValid = false then
    (false, { st with sendErrors := st.sendErrors + 1 })
  else
    match r with
    | SendtoOutcome.errTransport =>
        (false, { st with sendErrors := st.sendErrors + 1 })
    | SendtoOutcome.ok n =>
        (true, { st with packetsSent := st.packetsSent + 1,
                         bytesSent := st.bytesSent + n })

end MulticastSender

namespace MulticastReceiver

/-- Statistics of one `MulticastReceiverBase` instance. -/
structure ReceiverState where
  packetsReceived : Nat
  bytesReceived : Nat
  receiveErrors : Nat
  deriving DecidableEq

/-- Outcome of one `recvfrom` call in `receiver_loop`: timeout/would-block,
another error (while the receiver is still running), or a datagram of `n`
bytes from the given sender address. -/
inductive RecvfromOutcome where
  | errWouldBlock
  | errOther
  | ok (n : Nat) (sender : String)
  deriving DecidableEq

/-- Handler callback of the receiver loop. -/
inductive REvent where
  | cbMulticastData (n : Nat) (sender : String)
  deriving DecidableEq

/-- Embedding of one iteration of `MulticastReceiverBase::receiver_loop`
(src/multicast_receiver_unix.h): timeout continues silently; a real error
counts a receive error; `bytes_received > 0` increments the packet and byte
counters, resolves the sender address and dispatches the handler; a
zero-byte result falls through both branches and does nothing. -/
def receiver_step (st : ReceiverState) (r : RecvfromOutcome) :
    ReceiverState × List REvent :=
  match r with
  | RecvfromOutcome.errWouldBlock => (st, [])
  | RecvfromOutcome.errOther =>
      ({ st with receiveErrors := st.receiveErrors + 1 }, [])
  | RecvfromOutcome.ok n sender =>
      if 0 < n then
        ({ st with packetsReceived := st.packetsReceived + 1,
                   bytesReceived := st.bytesReceived + n },
         [REvent.cbMulticastData n sender])
      else (st, [])

end MulticastReceiver

section MapLemmas

variable {κ α : Type} [BEq κ] [LawfulBEq κ]

theorem lookup_mapInsert_self (k : κ) (v : α) (l : List (κ × α)) :
    (mapInsert k v l).lookup k = some v := by
  induction l with
  | nil => simp [mapInsert, List.lookup]
  | cons p rest ih =>
      obtain ⟨k', v'⟩ := p
      by_cases h : k' = k
      · subst h
        simp [mapInsert, List.lookup]
      · have hb : (k' == k) = false := beq_eq_false_iff_ne.2 h
        have hb' : (k == k') = false := beq_eq_false_iff_ne.2 (Ne.symm h)
        simp [mapInsert, hb, List.lookup, hb', ih]

theorem lookup_mapInsert_ne (k k' : κ) (v : α) (l : List (κ × α))
    (h : k' ≠ k) : (mapInsert k v l).lookup k' = l.lookup k' := by
  induction l with
  | nil => simp [mapInsert, List.lookup, beq_eq_false_iff_ne.2 h]
  | cons p rest ih =>
      obtain ⟨k₀, v₀⟩ := p
      by_cases h0 : k₀ = k
      · subst h0
        simp [mapInsert, List.lookup, beq_eq_false_iff_ne.2 h]
      · have hb : (k₀ == k) = false := beq_eq_false_iff_ne.2 h0
        by_cases h1 : k' = k₀
        · subst h1
          simp [mapInsert, hb, List.lookup]
        · have hb1 : (k' == k₀) = false := beq_eq_false_iff_ne.2 h1
          simp [mapInsert, hb, List.lookup, hb1, ih]

theorem lookup_mapErase_ne (k k' : κ) (l : List (κ × α))
    (h : k' ≠ k) : (mapErase k l).lookup k' = l.lookup k' := by
  induction l with
  | nil => simp [mapErase]
  | cons p rest ih =>
      obtain ⟨k₀, v₀⟩ := p
      by_cases h0 : k₀ = k
      · subst h0
        simp [mapErase, List.lookup, beq_eq_false_iff_ne.2 h]
      · have hb : (k₀ == k) = false := beq_eq_false_iff_ne.2 h0
        by_cases h1 : k' = k₀
        · subst h1
          simp [mapErase, hb, List.lookup]
        · have hb1 : (k' == k₀) = false := beq_eq_false_iff_ne.2 h1
          simp [mapErase, hb, List.lookup, hb1, ih]

theorem mem_keys_of_lookup_some {k : κ} {v : α} {l : List (κ × α)}
    (h : l.lookup k = some v) : k ∈ l.map Prod.fst := by
  induction l with
  | nil => simp [List.lookup] at h
  | cons p rest ih =>
      obtain ⟨k₀, v₀⟩ := p
      by_cases h0 : k = k₀
      · subst h0; simp
      · have hb : (k == k₀) = false := beq_eq_false_iff_ne.2 h0
        simp [List.lookup, hb] at h
        simpa using Or.inr (ih h)

theorem lookup_eq_none_of_not_mem_keys {k : κ} {l : List (κ × α)}
    (h : k ∉ l.map Prod.fst) : l.lookup k = none := by
  cases hl : l.lookup k with
  | none => rfl
  | some v => exact absurd (mem_keys_of_lookup_some hl) h

theorem entry_mem_of_lookup_some {k : κ} {v : α} {l : List (κ × α)}
    (h : l.lookup k = some v) : (k, v) ∈ l := by
  induction l with
  | nil => simp [List.lookup] at h
  | cons p rest ih =>
      obtain ⟨k₀, v₀⟩ := p
      by_cases h0 : k = k₀
      · subst h0
        simp [List.lookup] at h
        simp [h]
      · have hb : (k == k₀) = false := beq_eq_false_iff_ne.2 h0
        simp [List.lookup, hb] at h
        exact List.mem_cons_of_mem _ (ih h)

theorem lookup_mapErase_self {k : κ} {l : List (κ × α)}
    (hnd : keysNodup l) : (mapErase k l).lookup k = none := by
  induction l with
  | nil => simp [mapErase, List.lookup]
  | cons p rest ih =>
      obtain ⟨k₀, v₀⟩ := p
      have hnd' : keysNodup rest := by
        simpa [keysNodup] using (List.nodup_cons.1 hnd).2
      by_cases h0 : k₀ = k
      · subst h0
        have hk : k₀ ∉ rest.map Prod.fst := (List.nodup_cons.1 hnd).1
        simp [mapErase, lookup_eq_none_of_not_mem_keys hk]
      · have hb : (k₀ == k) = false := beq_eq_false_iff_ne.2 h0
        have hb' : (k == k₀) = false := beq_eq_false_iff_ne.2 (Ne.symm h0)
        simp [mapErase, hb, List.lookup, hb', ih hnd']

theorem mem_keys_mapInsert {x k : κ} {v : α} {l : List (κ × α)} :
    x ∈ (mapInsert k v l).map Prod.fst ↔ x ∈ l.map Prod.fst ∨ x = k := by
  induction l with
  | nil => simp [mapInsert]
  | cons p rest ih =>
      obtain ⟨k₀, v₀⟩ := p
      by_cases h0 : k₀ = k
      · subst h0
        simp [mapInsert]
        tauto
      · have hb : (k₀ == k) = false := beq_eq_false_iff_ne.2 h0
        simp [mapInsert, hb, ih]
        tauto

theorem keysNodup_mapInsert (k : κ) (v : α) (l : List (κ × α))
    (hnd : keysNodup l) : keysNodup (mapInsert k v l) := by
  induction l with
  | nil => simp [mapInsert, keysNodup]
  | cons p rest ih =>
      obtain ⟨k₀, v₀⟩ := p
      have hk : k₀ ∉ rest.map Prod.fst := (List.nodup_cons.1 hnd).1
      have hnd' : keysNodup rest := by
        simpa [keysNodup] using (List.nodup_cons.1 hnd).2
      by_cases h0 : k₀ = k
      · subst h0
        simpa [mapInsert, keysNodup] using hnd
      · have hb : (k₀ == k) = false := beq_eq_false_iff_ne.2 h0
        have hmem : k₀ ∉ (mapInsert k v rest).map Prod.fst := by
          intro hx
          rcases mem_keys_mapInsert.1 hx with hx' | hx'
          · exact hk hx'
          · exact h0 hx'
        have heq : mapInsert k v ((k₀, v₀) :: rest)
            = (k₀, v₀) :: mapInsert k v rest := by simp [mapInsert, hb]
        unfold keysNodup
        rw [heq, List.map_cons]
        exact List.nodup_cons.2 ⟨hmem, ih hnd'⟩

theorem mapErase_sublist (k : κ) (l : List (κ × α)) :
    (mapErase k l).Sublist l := by
  induction l with
  | nil => simp [mapErase]
  | cons p rest ih =>
      obtain ⟨k₀, v₀⟩ := p
      by_cases h0 : k₀ = k
      · have heq : mapErase k ((k₀, v₀) :: rest) = rest := by simp [mapErase, h0]
        rw [heq]
        exact List.sublist_cons_self _ _
      · have hb : (k₀ == k) = false := beq_eq_false_iff_ne.2 h0
        have heq : mapErase k ((k₀, v₀) :: rest)
            = (k₀, v₀) :: mapErase k rest := by simp [mapErase, hb]
        rw [heq]
        exact List.Sublist.cons₂ _ ih

theorem keysNodup_mapErase (k : κ) (l : List (κ × α))
    (hnd : keysNodup l) : keysNodup (mapErase k l) :=
  List.Nodup.sublist (List.Sublist.map Prod.fst (mapErase_sublist k l)) hnd

end MapLemmas

namespace TCPServer

theorem inv_initial : Inv initialServerState := by
  constructor <;> simp [initialServerState, keysNodup, List.lookup]

/-- Tearing one client down (epoll removal, socket-map erase, close, record
erase) preserves the invariant. -/
theorem Inv.remove {st : ServerState} (h : Inv st) (id : Nat) (info : ClientInfo)
    (hl : st.clients.lookup id = some info) :
    Inv { st with clients := mapErase id st.clients,
                  socketToId := mapErase info.socket st.socketToId,
                  epollSet := st.epollSet.erase info.socket } := by
  obtain ⟨hmem, hsock⟩ := h.clientSock id info hl
  constructor
  · exact keysNodup_mapErase _ _ h.clientsNodup
  · exact keysNodup_mapErase _ _ h.sockNodup
  · exact h.epollNodup.erase _
  · exact h.nextPos
  · intro id' info' hl'
    by_cases hid : id' = id
    · subst hid
      rw [lookup_mapErase_self h.clientsNodup] at hl'
      exact absurd hl' (by simp)
    · rw [lookup_mapErase_ne _ _ _ hid] at hl'
      exact h.idBound id' info' hl'
  · intro id' info' hl'
    by_cases hid : id' = id
    · subst hid
      rw [lookup_mapErase_self h.clientsNodup] at hl'
      exact absurd hl' (by simp)
    · rw [lookup_mapErase_ne _ _ _ hid] at hl'
      obtain ⟨hmem', hsock'⟩ := h.clientSock id' info' hl'
      have hne : info'.socket ≠ info.socket := by
        intro hcontra
        rw [hcontra, hsock] at hsock'
        exact hid (Option.some.inj hsock').symm
      refine ⟨(List.mem_erase_of_ne hne).2 hmem', ?_⟩
      rw [lookup_mapErase_ne _ _ _ hne]
      exact hsock'
  · intro sock' id' hl'
    by_cases hs : sock' = info.socket
    · subst hs
      rw [lookup_mapErase_self h.sockNodup] at hl'
      exact absurd hl' (by simp)
    · rw [lookup_mapErase_ne _ _ _ hs] at hl'
      obtain ⟨info'', hc, hcs⟩ := h.sockClient sock' id' hl'
      have hid : id' ≠ id := by
        intro hcontra
        subst hcontra
        rw [hl] at hc
        have hinfo : info'' = info := (Option.some.inj hc).symm
        exact hs (by rw [← hcs, hinfo])
      refine ⟨info'', ?_, hcs⟩
      rw [lookup_mapErase_ne _ _ _ hid]
      exact hc
  · intro sock' hmem'
    obtain ⟨hne, hmem''⟩ := h.epollNodup.mem_erase_iff.1 hmem'
    obtain ⟨id', hl'⟩ := h.epollSock sock' hmem''
    refine ⟨id', ?_⟩
    rw [lookup_mapErase_ne _ _ _ hne]
    exact hl'

/-- Accepting a connection on a fresh descriptor preserves the invariant. -/
theorem Inv.accept {st : ServerState} (h : Inv st) (o : AcceptOutcome)
    (hfresh : ∀ sock addr fcntlOk epollAddOk,
      o = AcceptOutcome.accepted sock addr fcntlOk epollAddOk → freshSock st sock) :
    Inv (accept_new_client st o).1 := by
  match o with
  | AcceptOutcome.wouldBlock => exact h
  | AcceptOutcome.acceptErr => exact h
  | AcceptOutcome.accepted sock addr fcntlOk epollAddOk =>
      obtain ⟨hfs1, hfs2, hfs3⟩ := hfresh sock addr fcntlOk epollAddOk rfl
      match epollAddOk with
      | false => simpa [accept_new_client] using h
      | true =>
          simp only [accept_new_client, if_true]
          constructor
          · exact keysNodup_mapInsert _ _ _ h.clientsNodup
          · exact keysNodup_mapInsert _ _ _ h.sockNodup
          · exact List.nodup_cons.2 ⟨hfs2, h.epollNodup⟩
          · exact Nat.le_succ_of_le h.nextPos
          · intro id' info' hl'
            by_cases hid : id' = st.nextClientId
            · subst hid
              exact Nat.lt_succ_self _
            · rw [lookup_mapInsert_ne _ _ _ _ hid] at hl'
              exact Nat.lt_succ_of_lt (h.idBound id' info' hl')
          · intro id' info' hl'
            by_cases hid : id' = st.nextClientId
            · subst hid
              rw [lookup_mapInsert_self] at hl'
              have hinfo : info' = { socket := sock, address := addr } :=
                (Option.some.inj hl').symm
              subst hinfo
              exact ⟨by simp, by simp [lookup_mapInsert_self]⟩
            · rw [lookup_mapInsert_ne _ _ _ _ hid] at hl'
              obtain ⟨hmem', hsock'⟩ := h.clientSock id' info' hl'
              have hne : info'.socket ≠ sock :=
                hfs3 (id', info') (entry_mem_of_lookup_some hl')
              refine ⟨List.mem_cons_of_mem _ hmem', ?_⟩
              rw [lookup_mapInsert_ne _ _ _ _ hne]
              exact hsock'
          · intro sock' id' hl'
            by_cases hs : sock' = sock
            · subst hs
              rw [lookup_mapInsert_self] at hl'
              have hid : id' = st.nextClientId := (Option.some.inj hl').symm
              subst hid
              exact ⟨{ socket := sock', address := addr }, by rw [lookup_mapInsert_self], rfl⟩
            · rw [lookup_mapInsert_ne _ _ _ _ hs] at hl'
              obtain ⟨info'', hc, hcs⟩ := h.sockClient sock' id' hl'
              have hid : id' ≠ st.nextClientId := Nat.ne_of_lt (h.idBound id' info'' hc)
              refine ⟨info'', ?_, hcs⟩
              rw [lookup_mapInsert_ne _ _ _ _ hid]
              exact hc
          · intro sock' hmem'
            rcases List.mem_cons.1 hmem' with hs | hs
            · subst hs
              exact ⟨st.nextClientId, lookup_mapInsert_self _ _ _⟩
            · have hne : sock' ≠ sock := fun hcontra => hfs2 (hcontra ▸ hs)
              obtain ⟨id', hl'⟩ := h.epollSock sock' hs
              refine ⟨id', ?_⟩
              rw [lookup_mapInsert_ne _ _ _ _ hne]
              exact hl'

/-- Handling a readiness event on a client socket preserves the invariant. -/
theorem Inv.handleClientData {st : ServerState} (h : Inv st) (id : Nat)
    (r : RecvOutcome) : Inv (handle_client_data st id r).1 := by
  cases hl : st.clients.lookup id with
  | none => simpa [handle_client_data, hl] using h
  | some info =>
      match r with
      | RecvOutcome.ok n =>
          by_cases hn : 0 < n
          · simpa [handle_client_data, hl, hn] using h
          · have hrem := h.remove id info hl
            simpa [handle_client_data, hl, hn, close_socket] using hrem
      | RecvOutcome.errWouldBlock => simpa [handle_client_data, hl] using h
      | RecvOutcome.errFatal =>
          have hrem := h.remove id info hl
          simpa [handle_client_data, hl, close_socket] using hrem

/-- An explicit disconnect preserves the invariant. -/
theorem Inv.disconnectClient {st : ServerState} (h : Inv st) (id : Nat) :
    Inv (disconnect_client st id).1 := by
  cases hl : st.clients.lookup id with
  | none => simpa [disconnect_client, hl] using h
  | some info =>
      have hrem := h.remove id info hl
      simpa [disconnect_client, hl, close_socket] using hrem

/-- The send loop either leaves the registry untouched or runs the ordinary
disconnect housekeeping. -/
theorem send_loop_state (st : ServerState) (id : Nat) (sock : Int) :
    ∀ (outs : List SendResult) (n : Nat),
      (send_loop st id sock outs n).2.1 = st ∨
      (send_loop st id sock outs n).2.1 = (disconnect_client st id).1 := by
  intro outs
  induction outs with
  | nil =>
      intro n
      cases n with
      | zero => exact Or.inl rfl
      | succ m => exact Or.inl rfl
  | cons r rest ih =>
      intro n
      cases n with
      | zero => exact Or.inl rfl
      | succ m =>
          match r with
          | SendResult.sent k => simpa [send_loop] using ih (m + 1 - k)
          | SendResult.wouldBlock => simpa [send_loop] using ih (m + 1)
          | SendResult.errConnLost => exact Or.inr rfl
          | SendResult.errOther => exact Or.inl rfl

/-- A `send_data` call preserves the invariant. -/
theorem Inv.sendData {st : ServerState} (h : Inv st) (id : Nat) (dataLen : Nat)
    (outs : List SendResult) : Inv (send_data st id dataLen outs).2.1 := by
  cases hl : st.clients.lookup id with
  | none => simpa [send_data, hl] using h
  | some info =>
      have hst := send_loop_state st id info.socket outs dataLen
      rcases hst with hst | hst <;>
        simp only [send_data, hl] <;> rw [hst]
      · exact h
      · exact h.disconnectClient id

/-- Every reachable state satisfies the registry invariant. -/
theorem reachable_inv {st : ServerState} {evs : List SEvent}
    (h : Reachable st evs) : Inv st := by
  induction h with
  | init => exact inv_initial
  | step _ hs ih =>
      cases hs with
      | accept o hfresh => exact ih.accept o hfresh
      | clientData id r => exact ih.handleClientData id r
      | disconnect id => exact ih.disconnectClient id
      | sendCall id dataLen outs => exact ih.sendData id dataLen outs

/-- Ids issued so far, read off the event trace: one per insertion into the
id-to-record registry (each issuance of `next_client_id_.fetch_add(1)` is
followed by exactly that insertion). -/
theorem issuedIds_append (evs evs' : List SEvent) :
    issuedIds (evs ++ evs') = issuedIds evs ++ issuedIds evs' :=
  List.filterMap_append _ _ _

theorem issuedIds_close_socket (st : ServerState) (sock : Int) :
    issuedIds (close_socket st sock).2 = [] := by
  simp [close_socket, issuedIds]

theorem issuedIds_disconnect_client (st : ServerState) (id : Nat) :
    issuedIds (disconnect_client st id).2 = [] := by
  cases hl : st.clients.lookup id with
  | none => simp [disconnect_client, hl, issuedIds]
  | some info => simp [disconnect_client, hl, close_socket, issuedIds]

theorem issuedIds_handle_client_data (st : ServerState) (id : Nat)
    (r : RecvOutcome) : issuedIds (handle_client_data st id r).2 = [] := by
  cases hl : st.clients.lookup id with
  | none => simp [handle_client_data, hl, issuedIds]
  | some info =>
      match r with
      | RecvOutcome.ok n =>
          by_cases hn : 0 < n <;>
            simp [handle_client_data, hl, hn, close_socket, issuedIds]
      | RecvOutcome.errWouldBlock => simp [handle_client_data, hl, issuedIds]
      | RecvOutcome.errFatal =>
          simp [handle_client_data, hl, close_socket, issuedIds]

theorem issuedIds_send_loop (st : ServerState) (id : Nat) (sock : Int) :
    ∀ (outs : List SendResult) (n : Nat),
      issuedIds (send_loop st id sock outs n).2.2 = [] := by
  intro outs
  induction outs with
  | nil =>
      intro n
      cases n with
      | zero => simp [send_loop, issuedIds]
      | succ m => simp [send_loop, issuedIds]
  | cons r rest ih =>
      intro n
      cases n with
      | zero => simp [send_loop, issuedIds]
      | succ m =>
          match r with
          | SendResult.sent k =>
              simpa [send_loop, issuedIds] using ih (m + 1 - k)
          | SendResult.wouldBlock => simpa [send_loop] using ih (m + 1)
          | SendResult.errConnLost =>
              simpa [send_loop] using issuedIds_disconnect_client st id
          | SendResult.errOther => simp [send_loop, issuedIds]

theorem issuedIds_send_data (st : ServerState) (id : Nat) (dataLen : Nat)
    (outs : List SendResult) : issuedIds (send_data st id dataLen outs).2.2 = [] := by
  cases hl : st.clients.lookup id with
  | none => simp [send_data, hl, issuedIds]
  | some info =>
      simpa [send_data, hl] using issuedIds_send_loop st id info.socket outs dataLen

theorem issuedIds_accept_success (st : ServerState) (sock : Int) (addr : String)
    (fcntlOk : Bool) :
    issuedIds (accept_new_client st (AcceptOutcome.accepted sock addr fcntlOk true)).2
      = [st.nextClientId] := by
  cases fcntlOk <;> simp [accept_new_client, issuedIds]

/-- Steps other than the outcome-changing fields do not change the id
counter. -/
theorem nextClientId_handle_client_data (st : ServerState) (id : Nat)
    (r : RecvOutcome) : (handle_client_data st id r).1.nextClientId = st.nextClientId := by
  cases hl : st.clients.lookup id with
  | none => simp [handle_client_data, hl]
  | some info =>
      match r with
      | RecvOutcome.ok n =>
          by_cases hn : 0 < n <;> simp [handle_client_data, hl, hn, close_socket]
      | RecvOutcome.errWouldBlock => simp [handle_client_data, hl]
      | RecvOutcome.errFatal => simp [handle_client_data, hl, close_socket]

theorem nextClientId_disconnect_client (st : ServerState) (id : Nat) :
    (disconnect_client st id).1.nextClientId = st.nextClientId := by
  cases hl : st.clients.lookup id with
  | none => simp [disconnect_client, hl]
  | some info => simp [disconnect_client, hl, close_socket]

theorem nextClientId_send_data (st : ServerState) (id : Nat) (dataLen : Nat)
    (outs : List SendResult) :
    (send_data st id dataLen outs).2.1.nextClientId = st.nextClientId := by
  cases hl : st.clients.lookup id with
  | none => simp [send_data, hl]
  | some info =>
      simp only [send_data, hl]
      rcases send_loop_state st id info.socket outs dataLen with hst | hst <;> rw [hst]
      exact nextClientId_disconnect_client st id

/-- Trace invariant: the ids issued so far are exactly `1, 2, …,
next_client_id_ - 1`, in order. -/
theorem reachable_issued_trace {st : ServerState} {evs : List SEvent}
    (h : Reachable st evs) :
    issuedIds evs = List.range' 1 (st.nextClientId - 1) := by
  induction h with
  | init => simp [initialServerState, issuedIds]
  | step hr hs ih =>
      rename_i st₀ evs₀ st₁ evs₁
      have hinv : Inv st₀ := reachable_inv hr
      rw [issuedIds_append]
      cases hs with
      | accept o hfresh =>
          match o with
          | AcceptOutcome.wouldBlock => simpa [accept_new_client, issuedIds] using ih
          | AcceptOutcome.acceptErr => simpa [accept_new_client, issuedIds] using ih
          | AcceptOutcome.accepted sock addr fcntlOk epollAddOk =>
              match epollAddOk with
              | false =>
                  cases fcntlOk <;>
                    simpa [accept_new_client, issuedIds] using ih
              | true =>
                  rw [issuedIds_accept_success, ih]
                  obtain ⟨k, hk⟩ := Nat.exists_eq_add_of_le hinv.nextPos
                  have hnext : (accept_new_client st₀
                      (AcceptOutcome.accepted sock addr fcntlOk true)).1.nextClientId
                      = st₀.nextClientId + 1 := by
                    cases fcntlOk <;> simp [accept_new_client]
                  rw [hnext, hk]
                  have hconcat := @List.range'_concat 1 1 k
                  simp only [Nat.one_mul] at hconcat
                  simp [Nat.add_comm 1 k, hconcat]
      | clientData id r =>
          rw [issuedIds_handle_client_data, nextClientId_handle_client_data]
          simpa using ih
      | disconnect id =>
          rw [issuedIds_disconnect_client, nextClientId_disconnect_client]
          simpa using ih
      | sendCall id dataLen outs =>
          rw [issuedIds_send_data, nextClientId_send_data]
          simpa using ih

theorem reachable_stA : Reachable stA trA :=
  Reachable.step Reachable.init
    (Step.accept initialServerState
      (AcceptOutcome.accepted 5 "10.0.0.1" true true)
      (fun _ _ _ _ he => by cases he; decide))

theorem reachable_stB : Reachable stB trB :=
  Reachable.step reachable_stA
    (Step.accept stA (AcceptOutcome.accepted 7 "10.0.0.2" true true)
      (fun _ _ _ _ he => by cases he; decide))

theorem reachable_stC : Reachable stC trC :=
  Reachable.step reachable_stB (Step.disconnect stB 1)

/-- C1: for every reachable state of one TCP server instance, a client id is
present in the id-to-record registry `clients_` if and only if some socket is
registered with the multiplexer and mapped to that id by
`socket_to_client_id_` — both mappings are created together on accept and
torn down together on disconnect. -/
theorem tcp_server_registry_iff_multiplexer {st : ServerState}
    {evs : List SEvent} (h : Reachable st evs) (id : Nat) :
    (st.clients.lookup id).isSome ↔
      ∃ sock, sock ∈ st.epollSet ∧ st.socketToId.lookup sock = some id := by
  have hinv := reachable_inv h
  constructor
  · intro hsome
    obtain ⟨info, hinfo⟩ := Option.isSome_iff_exists.1 hsome
    obtain ⟨hmem, hsock⟩ := hinv.clientSock id info hinfo
    exact ⟨info.socket, hmem, hsock⟩
  · rintro ⟨sock, hmem, hsock⟩
    obtain ⟨info, hc, _⟩ := hinv.sockClient sock id hsock
    exact Option.isSome_iff_exists.2 ⟨info, hc⟩

theorem tcp_server_registry_iff_multiplexer_witness :
    ((stC.clients.lookup 2).isSome ↔
      ∃ sock, sock ∈ stC.epollSet ∧ stC.socketToId.lookup sock = some 2) ∧
    ((stC.clients.lookup 1).isSome ↔
      ∃ sock, sock ∈ stC.epollSet ∧ stC.socketToId.lookup sock = some 1) :=
  ⟨tcp_server_registry_iff_multiplexer reachable_stC 2,
   tcp_server_registry_iff_multiplexer reachable_stC 1⟩

/-- C2: across one server instance's whole run, the sequence of issued
client ids is strictly increasing, begins with id 1, and contains no id
twice, even after disconnects. -/
theorem tcp_server_client_ids_monotone {st : ServerState} {evs : List SEvent}
    (h : Reachable st evs) :
    List.Chain' (· < ·) (issuedIds evs) ∧
    (issuedIds evs ≠ [] → (issuedIds evs).head? = some 1) ∧
    (issuedIds evs).Nodup := by
  have ht := reachable_issued_trace h
  refine ⟨?_, ?_, ?_⟩
  · rw [ht]
    exact (List.pairwise_lt_range' 1 _).chain'
  · intro hne
    rw [ht] at hne ⊢
    cases hk : st.nextClientId - 1 with
    | zero => rw [hk] at hne; simp at hne
    | succ m =>
        rw [List.range'_succ 1 m 1]
        rfl
  · rw [ht]
    exact List.nodup_range' 1 _

theorem tcp_server_client_ids_monotone_witness :
    List.Chain' (· < ·) (issuedIds trC) ∧
    (issuedIds trC ≠ [] → (issuedIds trC).head? = some 1) ∧
    (issuedIds trC).Nodup :=
  tcp_server_client_ids_monotone reachable_stC

/-- C3: when the instance is not running, `start` returns false on socket
creation, bind, or listen failure, closing the socket it created (when it
created one) and leaving the running flag false so the call may be retried;
when every step succeeds it sets running, launches the reactor thread, and
returns true. -/
theorem tcp_server_start_contract (c : SrvCtl) (env : StartEnv)
    (h : c.running = false) :
    (env.socketOk = false →
        server_start c env = (false, { c with serverSocket := -1 }, [])) ∧
    (env.socketOk = true → env.bindOk = false →
        server_start c env =
          (false, { c with serverSocket := -1 },
           [CtlEvent.closeServerSock env.newFd])) ∧
    (env.socketOk = true → env.bindOk = true → env.listenOk = false →
        server_start c env =
          (false, { c with serverSocket := -1 },
           [CtlEvent.closeServerSock env.newFd])) ∧
    (env.socketOk = true → env.bindOk = true → env.listenOk = true →
        server_start c env =
          (true,
           { c with running := true, serverSocket := env.newFd,
                    threadStarted := true },
           [CtlEvent.launchThread])) := by
  refine ⟨?_, ?_, ?_, ?_⟩ <;> intro hs <;>
    simp [server_start, h, hs]
  · intro hb
    simp [hb]
  · intro hb hl
    simp [hb, hl]
  · intro hb hl
    simp [hb, hl]

theorem tcp_server_start_contract_witness :
    server_start { running := false, serverSocket := -1, threadStarted := false }
        { socketOk := true, newFd := 3, bindOk := true, listenOk := true } =
      (true,
       { running := true, serverSocket := 3, threadStarted := true },
       [CtlEvent.launchThread]) :=
  (tcp_server_start_contract
      { running := false, serverSocket := -1, threadStarted := false }
      { socketOk := true, newFd := 3, bindOk := true, listenOk := true }
      rfl).2.2.2 rfl rfl rfl

/-- C4: whenever the server tears one connection down — orderly peer close
(`recv` = 0), fatal receive error, or an explicit disconnect as used on a
fatal send error — the housekeeping events are exactly: multiplexer removal,
socket-map erase, socket close, record-map erase, in that order, and the
disconnected callback (when invoked at all) comes only after all of them. -/
theorem tcp_server_teardown_order (st : ServerState) (id : Nat)
    (info : ClientInfo) (h : st.clients.lookup id = some info) :
    (handle_client_data st id (RecvOutcome.ok 0)).2 =
      [SEvent.epollDel info.socket, SEvent.eraseSockMap info.socket,
       SEvent.closeSock info.socket, SEvent.eraseClientMap id,
       SEvent.cbDisconnected id] ∧
    (handle_client_data st id RecvOutcome.errFatal).2 =
      [SEvent.epollDel info.socket, SEvent.eraseSockMap info.socket,
       SEvent.closeSock info.socket, SEvent.eraseClientMap id,
       SEvent.cbDisconnected id] ∧
    (disconnect_client st id).2 =
      [SEvent.epollDel info.socket, SEvent.eraseSockMap info.socket,
       SEvent.closeSock info.socket, SEvent.eraseClientMap id] ∧
    (∀ (dataLen : Nat) (outs : List SendResult),
      (send_data st id (dataLen + 1) (SendResult.errConnLost :: outs)).2.2 =
        [SEvent.epollDel info.socket, SEvent.eraseSockMap info.socket,
         SEvent.closeSock info.socket, SEvent.eraseClientMap id]) := by
  refine ⟨?_, ?_, ?_, ?_⟩ <;>
    simp [handle_client_data, disconnect_client, send_data, send_loop, h,
          close_socket]

theorem tcp_server_teardown_order_witness :
    (handle_client_data stA 1 (RecvOutcome.ok 0)).2 =
      [SEvent.epollDel 5, SEvent.eraseSockMap 5, SEvent.closeSock 5,
       SEvent.eraseClientMap 1, SEvent.cbDisconnected 1] ∧
    (handle_client_data stA 1 RecvOutcome.errFatal).2 =
      [SEvent.epollDel 5, SEvent.eraseSockMap 5, SEvent.closeSock 5,
       SEvent.eraseClientMap 1, SEvent.cbDisconnected 1] ∧
    (disconnect_client stA 1).2 =
      [SEvent.epollDel 5, SEvent.eraseSockMap 5, SEvent.closeSock 5,
       SEvent.eraseClientMap 1] ∧
    (send_data stA 1 3 [SendResult.errConnLost]).2.2 =
      [SEvent.epollDel 5, SEvent.eraseSockMap 5, SEvent.closeSock 5,
       SEvent.eraseClientMap 1] :=
  ⟨(tcp_server_teardown_order stA 1 { socket := 5, address := "10.0.0.1" } rfl).1,
   (tcp_server_teardown_order stA 1 { socket := 5, address := "10.0.0.1" } rfl).2.1,
   (tcp_server_teardown_order stA 1 { socket := 5, address := "10.0.0.1" } rfl).2.2.1,
   (tcp_server_teardown_order stA 1 { socket := 5, address := "10.0.0.1" } rfl).2.2.2 2 []⟩

/-- C5 counterexample: with two connections pending in the accept queue, one
listening-socket readiness event makes the code accept exactly one of them
(one pending outcome remains and one connected callback fires), whereas the
claimed accept-until-would-block loop would accept both; the claim is false
of `server_loop`, which calls `accept_new_client` — a single `accept` —
once per readiness event. -/
theorem tcp_server_accept_loop_counterexample :
    (handle_listening_ready initialServerState pendingTwo).2.2.length = 1 ∧
    (handle_listening_ready_spec initialServerState pendingTwo).2.2.length = 0 ∧
    ((handle_listening_ready initialServerState pendingTwo).2.1.countP
        isConnectedEvent) = 1 ∧
    ((handle_listening_ready_spec initialServerState pendingTwo).2.1.countP
        isConnectedEvent) = 2 ∧
    handle_listening_ready initialServerState pendingTwo ≠
      handle_listening_ready_spec initialServerState pendingTwo := by
  decide

/-- C5 amended: when the listening socket is reported ready, exactly one
accept is attempted (consuming one outcome of the accept queue; the rest
wait for later readiness events), and a socket accepted with successful
epoll registration is made non-blocking, registered with the multiplexer
for read-readiness, assigned the next client id, inserted into both
registry mappings, and announced via the connected callback with
`(client_id, peer_address)`. -/
theorem tcp_server_accept_once_per_ready_event (st : ServerState)
    (o : AcceptOutcome) (rest : List AcceptOutcome) (sock : Int)
    (addr : String) :
    (handle_listening_ready st (o :: rest)) =
      ((accept_new_client st o).1, (accept_new_client st o).2, rest) ∧
    (handle_listening_ready st
        (AcceptOutcome.accepted sock addr true true :: rest)).2.1 =
      [SEvent.setNonBlock sock, SEvent.epollAdd sock,
       SEvent.insertClientMap st.nextClientId, SEvent.insertSockMap sock,
       SEvent.cbConnected st.nextClientId addr] ∧
    (handle_listening_ready st
        (AcceptOutcome.accepted sock addr true true :: rest)).1.clients.lookup
        st.nextClientId = some { socket := sock, address := addr } ∧
    (handle_listening_ready st
        (AcceptOutcome.accepted sock addr true true :: rest)).1.socketToId.lookup
        sock = some st.nextClientId := by
  refine ⟨rfl, by simp [handle_listening_ready, accept_new_client], ?_, ?_⟩
  · simp [handle_listening_ready, accept_new_client, lookup_mapInsert_self]
  · simp [handle_listening_ready, accept_new_client, lookup_mapInsert_self]

/-- C8: `send_data` with a client id that is absent from the registry
(unknown or already disconnected) returns false, performs no write, emits
no events, and leaves the whole server state — both registry mappings and
anything else in it — unchanged. -/
theorem tcp_server_send_data_unknown_id (st : ServerState) (id : Nat)
    (dataLen : Nat) (outs : List SendResult)
    (h : st.clients.lookup id = none) :
    send_data st id dataLen outs = (some false, st, []) := by
  simp [send_data, h]

theorem tcp_server_send_data_unknown_id_witness :
    send_data stC 1 3 [SendResult.sent 3] = (some false, stC, []) ∧
    send_data initialServerState 42 7 [] =
      (some false, initialServerState, []) :=
  ⟨tcp_server_send_data_unknown_id stC 1 3 [SendResult.sent 3] (by decide),
   tcp_server_send_data_unknown_id initialServerState 42 7 [] rfl⟩

/-- C10: on every accepted connection the client is inserted into the
id-to-record map and the socket-to-id map strictly before the connected
callback event, and the state in force when the callback runs already
contains the connection under its new id — so a `send_data` from inside the
callback finds it. -/
theorem tcp_server_insert_before_connected_callback (st : ServerState)
    (sock : Int) (addr : String) (fcntlOk : Bool) :
    (accept_new_client st (AcceptOutcome.accepted sock addr fcntlOk true)).2 =
      (if fcntlOk then [SEvent.setNonBlock sock] else []) ++
        [SEvent.epollAdd sock, SEvent.insertClientMap st.nextClientId,
         SEvent.insertSockMap sock, SEvent.cbConnected st.nextClientId addr] ∧
    (accept_new_client st
        (AcceptOutcome.accepted sock addr fcntlOk true)).1.clients.lookup
        st.nextClientId = some { socket := sock, address := addr } ∧
    (accept_new_client st
        (AcceptOutcome.accepted sock addr fcntlOk true)).1.socketToId.lookup
        sock = some st.nextClientId := by
  refine ⟨by simp [accept_new_client], ?_, ?_⟩
  · simp [accept_new_client, lookup_mapInsert_self]
  · simp [accept_new_client, lookup_mapInsert_self]

end TCPServer

namespace TCPClient

theorem client_loop_iter_events (inps : List ClientInp) :
    ∀ e ∈ (client_loop_iter inps).1,
      (∃ n, e = CEvent.cbData n) ∨ e = CEvent.setDisconnected := by
  induction inps with
  | nil => simp [client_loop_iter]
  | cons i rest ih =>
      match i with
      | ClientInp.flagCleared => simp [client_loop_iter]
      | ClientInp.recv res fatalErrno =>
          by_cases hres : 0 < res
          · intro e he
            simp only [client_loop_iter, if_pos hres] at he
            rcases List.mem_cons.1 he with hc | hc
            · exact Or.inl ⟨res.toNat, hc⟩
            · exact ih e hc
          · by_cases hz : res = 0
            · intro e he
              simp only [client_loop_iter, if_neg hres, if_pos hz] at he
              simp at he
              exact Or.inr he
            · match hf : fatalErrno with
              | true =>
                  intro e he
                  simp only [client_loop_iter, if_neg hres, if_neg hz,
                    if_pos] at he
                  simp at he
                  exact Or.inr he
              | false =>
                  intro e he
                  simp only [client_loop_iter, if_neg hres, if_neg hz] at he
                  simp at he
                  exact ih e he

/-- C7: whenever the client receive loop exits — peer closed, fatal receive
error, or the connected flag cleared by `disconnect()` — the produced trace
contains the disconnected callback exactly once, and the socket close comes
after that callback returns. -/
theorem tcp_client_disconnected_once_then_close (inps : List ClientInp)
    (tr : List CEvent) (h : client_loop inps = some tr) :
    tr.count CEvent.cbDisconnected = 1 ∧
    ∃ pre, tr = pre ++ [CEvent.cbDisconnected, CEvent.closeSocket] ∧
      CEvent.cbDisconnected ∉ pre := by
  unfold client_loop at h
  by_cases hex : (client_loop_iter inps).2
  · rw [if_pos hex] at h
    have hnd : CEvent.cbDisconnected ∉ (client_loop_iter inps).1 := by
      intro hmem
      rcases client_loop_iter_events inps _ hmem with ⟨n, hn⟩ | hn <;> simp at hn
    have htr : tr = (client_loop_iter inps).1 ++
        [CEvent.cbDisconnected, CEvent.closeSocket] := (Option.some.inj h).symm
    subst htr
    refine ⟨?_, (client_loop_iter inps).1, rfl, hnd⟩
    rw [List.count_append]
    have hz : (client_loop_iter inps).1.count CEvent.cbDisconnected = 0 :=
      List.count_eq_zero.2 hnd
    rw [hz]
    rfl
  · rw [if_neg hex] at h
    exact absurd h (by simp)

theorem tcp_client_disconnected_once_then_close_witness :
    client_loop [ClientInp.recv 3 false, ClientInp.recv (-1) false,
        ClientInp.recv 0 false] =
      some [CEvent.cbData 3, CEvent.setDisconnected, CEvent.cbDisconnected,
            CEvent.closeSocket] ∧
    ([CEvent.cbData 3, CEvent.setDisconnected, CEvent.cbDisconnected,
      CEvent.closeSocket].count CEvent.cbDisconnected = 1 ∧
     ∃ pre, [CEvent.cbData 3, CEvent.setDisconnected, CEvent.cbDisconnected,
         CEvent.closeSocket] =
           pre ++ [CEvent.cbDisconnected, CEvent.closeSocket] ∧
       CEvent.cbDisconnected ∉ pre) :=
  ⟨by decide,
   tcp_client_disconnected_once_then_close
     [ClientInp.recv 3 false, ClientInp.recv (-1) false, ClientInp.recv 0 false]
     [CEvent.cbData 3, CEvent.setDisconnected, CEvent.cbDisconnected,
      CEvent.closeSocket] (by decide)⟩

end TCPClient

namespace MulticastSender

/-- C6 counterexample: a running sender asked to send 10 bytes of which
`sendto` transmits only 5 returns true, increments the packet counter, adds
the 5 transmitted bytes to the byte counter, and leaves the error counter
unchanged — the claim that a partial send is a returns-false, error-counted
outcome is false of the code, which only logs a warning. -/
theorem multicast_sender_partial_send_counterexample :
    msender_send_data
        { running := true, packetsSent := 0, bytesSent := 0, sendErrors := 0 }
        10 true (SendtoOutcome.ok 5) =
      (true,
       { running := true, packetsSent := 1, bytesSent := 5, sendErrors := 0 }) ∧
    (msender_send_data
        { running := true, packetsSent := 0, bytesSent := 0, sendErrors := 0 }
        10 true (SendtoOutcome.ok 5)).1 ≠ false := by
  decide

/-- C6 amended: `send_data` returns false without sending when the sender is
not running or the data is empty; an invalid multicast address or a
transport error increments the error counter and returns false; any
non-negative `sendto` result — a full send or a partial send, the latter
only logged as a warning — counts as success: the packet counter is
incremented and the byte counter grows by the bytes actually transmitted. -/
theorem multicast_sender_send_data_contract (st : SenderState)
    (dataLen : Nat) (addrValid : Bool) (r : SendtoOutcome) :
    (st.running = false →
        msender_send_data st dataLen addrValid r = (false, st)) ∧
    (st.running = true → dataLen = 0 →
        msender_send_data st dataLen addrValid r = (false, st)) ∧
    (st.running = true → 0 < dataLen → addrValid = false →
        msender_send_data st dataLen addrValid r =
          (false, { st with sendErrors := st.sendErrors + 1 })) ∧
    (st.running = true → 0 < dataLen → addrValid = true →
      r = SendtoOutcome.errTransport →
        msender_send_data st dataLen addrValid r =
          (false, { st with sendErrors := st.sendErrors + 1 })) ∧
    (∀ n, st.running = true → 0 < dataLen → addrValid = true →
      r = SendtoOutcome.ok n →
        msender_send_data st dataLen addrValid r =
          (true, { st with packetsSent := st.packetsSent + 1,
                           bytesSent := st.bytesSent + n })) := by
  refine ⟨?_, ?_, ?_, ?_, ?_⟩
  · intro hr
    simp [msender_send_data, hr]
  · intro hr hd
    simp [msender_send_data, hr, hd]
  · intro hr hd ha
    simp [msender_send_data, hr, Nat.pos_iff_ne_zero.1 hd, ha]
  · intro hr hd ha he
    simp [msender_send_data, hr, Nat.pos_iff_ne_zero.1 hd, ha, he]
  · intro n hr hd ha he
    simp [msender_send_data, hr, Nat.pos_iff_ne_zero.1 hd, ha, he]

theorem multicast_sender_send_data_contract_witness :
    msender_send_data
        { running := true, packetsSent := 2, bytesSent := 7, sendErrors := 1 }
        3 true (SendtoOutcome.ok 3) =
      (true,
       { running := true, packetsSent := 3, bytesSent := 10, sendErrors := 1 }) ∧
    msender_send_data
        { running := false, packetsSent := 0, bytesSent := 0, sendErrors := 0 }
        3 true (SendtoOutcome.ok 3) =
      (false,
       { running := false, packetsSent := 0, bytesSent := 0, sendErrors := 0 }) :=
  ⟨(multicast_sender_send_data_contract
      { running := true, packetsSent := 2, bytesSent := 7, sendErrors := 1 }
      3 true (SendtoOutcome.ok 3)).2.2.2.2 3 rfl (by decide) rfl rfl,
   (multicast_sender_send_data_contract
      { running := false, packetsSent := 0, bytesSent := 0, sendErrors := 0 }
      3 true (SendtoOutcome.ok 3)).1 rfl⟩

end MulticastSender

namespace MulticastReceiver

/-- C9: a successfully received zero-byte datagram is silently dropped — no
handler call, no counter change — while a datagram of at least one byte
increments the packet counter, adds its size to the byte counter, and
reaches the handler together with the sender's address text. -/
theorem multicast_receiver_zero_byte_dropped (st : ReceiverState)
    (sender : String) :
    receiver_step st (RecvfromOutcome.ok 0 sender) = (st, []) ∧
    (∀ n, 0 < n → receiver_step st (RecvfromOutcome.ok n sender) =
      ({ st with packetsReceived := st.packetsReceived + 1,
                 bytesReceived := st.bytesReceived + n },
       [REvent.cbMulticastData n sender])) := by
  constructor
  · simp [receiver_step]
  · intro n hn
    simp [receiver_step, hn]

theorem multicast_receiver_zero_byte_dropped_witness :
    receiver_step
        { packetsReceived := 0, bytesReceived := 0, receiveErrors := 0 }
        (RecvfromOutcome.ok 0 "192.168.1.9") =
      ({ packetsReceived := 0, bytesReceived := 0, receiveErrors := 0 }, []) ∧
    receiver_step
        { packetsReceived := 0, bytesReceived := 0, receiveErrors := 0 }
        (RecvfromOutcome.ok 4 "192.168.1.9") =
      ({ packetsReceived := 1, bytesReceived := 4, receiveErrors := 0 },
       [REvent.cbMulticastData 4 "192.168.1.9"]) :=
  ⟨(multicast_receiver_zero_byte_dropped
      { packetsReceived := 0, bytesReceived := 0, receiveErrors := 0 }
      "192.168.1.9").1,
   (multicast_receiver_zero_byte_dropped
      { packetsReceived := 0, bytesReceived := 0, receiveErrors := 0 }
      "192.168.1.9").2 4 (by decide)⟩

end MulticastReceiver

end SlickSocket
